import Mathlib

/-!
Verification of the timeline page-interaction controller (src/script.js).

The canonical implementation is the debounced TimelineController together
with the TimelineScroll progress tracker.  The development below is a
shallow embedding of its state and of the pure parts of its behaviour:

* CtrlState mirrors the controller's mutable fields (currentFilter,
  currentSubcategory, currentSearchTerm) together with the DOM state the
  handlers read and write: which subcategory picker containers carry the
  css class show, and which filter / subcategory button carries active.
* EventData mirrors the cached per-event record built by preloadEventData.
* The click handlers of setupSearchListeners, setupFilterListeners,
  setupSubcategoryListeners and setupClickOutsideListener become pure
  state transformers; a step relation collects the user interactions that
  are possible through the UI (a subcategory button can only be clicked
  while its owning container is shown).
* applyAllFilters becomes a per-event style transformer plus a section
  visibility recomputation, evaluated in the settled regime (all pending
  fade timers have fired with no intervening state change).
* The search-highlight pass appears twice.  A splitter producing text
  and highlight nodes embeds the highlight algorithm as specified, with
  the search term treated as a literal case-insensitive pattern; the
  code instead compiles the unescaped term with the RegExp constructor
  and writes the replaced string through innerHTML, mechanisms whose
  full semantics (pattern compilation errors, HTML re-parsing) lie
  outside this embedding.  What is embedded of them exactly is the
  pattern string the code builds and a well-formedness condition that
  every compilable JavaScript pattern satisfies, used to evaluate the
  code at a failing input.
* The scroll-progress computation is embedded over a JavaScript number
  model (rationals extended with signed infinities and NaN) so that the
  division and Math.min / Math.max behaviour at the degenerate document
  height is captured exactly.
-/

/-- JavaScript string truthiness: a string is falsy exactly when empty. -/
def truthyStr (s : String) : Bool := !(s == "")

/-- JavaScript truthiness of a nullable string value
(null is falsy, a string is falsy exactly when empty). -/
def truthyOptStr : Option String → Bool
  | none => false
  | some s => truthyStr s

/-- Does the needle occur at the head of the haystack (character exact)?
Helper for the substring test used by JavaScript String.includes. -/
def isLeadOf : List Char → List Char → Bool
  | [], _ => true
  | _ :: _, [] => false
  | a :: as, b :: bs => a == b && isLeadOf as bs

/-- Plain substring containment of needle in hay, the semantics of
JavaScript String.includes. -/
def strContainsSub (hay needle : List Char) : Bool :=
  match hay with
  | [] => needle.isEmpty
  | _ :: t => isLeadOf needle hay || strContainsSub t needle

/-- The cached per-event record built by preloadEventData:
lower-cased concatenated text, primary category code from
data-category, optional subcategory code from data-subcategory. -/
structure EventData where
  text : String
  category : String
  subcategory : Option String
deriving DecidableEq

/-- The raw data read off an event DOM node by preloadEventData. -/
structure RawEvent where
  title : String
  description : String
  year : String
  categoryTags : List String
  subcategoryTags : List String
  category : String
  subcategory : Option String

/-- preloadEventData: cache the lower-cased concatenation of title,
description, year, category tags and subcategory tags (tags joined by a
single space), together with the category and subcategory codes. -/
def preloadEventData (r : RawEvent) : EventData :=
  { text := (r.title ++ " " ++ r.description ++ " " ++ r.year ++ " "
      ++ String.intercalate " " r.categoryTags ++ " "
      ++ String.intercalate " " r.subcategoryTags).toLower
    category := r.category
    subcategory := r.subcategory }

/-- The mutable state of TimelineController together with the DOM state
its handlers read and write: currentFilter, currentSubcategory,
currentSearchTerm, the set of subcategory picker containers carrying the
css class show (listed by their owning category code), the filter button
carrying active and the subcategory button carrying active. -/
structure CtrlState where
  currentFilter : String
  currentSubcategory : Option String
  currentSearchTerm : String
  shownPickers : List String
  activeFilter : Option String
  activeSub : Option String
deriving DecidableEq

/-- The controller state right after construction: filter all, no
subcategory, empty search term, no picker shown, the all button active. -/
def initState : CtrlState :=
  { currentFilter := "all"
    currentSubcategory := none
    currentSearchTerm := ""
    shownPickers := []
    activeFilter := some "all"
    activeSub := none }

/-- matchesSearch: true when the current search term is falsy (empty);
otherwise true exactly when the cached lower-cased event text contains
the lower-cased term as a plain substring. -/
def matchesSearch (s : CtrlState) (e : EventData) : Bool :=
  if !(truthyStr s.currentSearchTerm) then true
  else strContainsSub e.text.toList (s.currentSearchTerm.toLower).toList

/-- matchesFilter: true when currentFilter is all; otherwise false when
the event's category code differs from currentFilter; otherwise, when
currentSubcategory is truthy, true exactly when the event's subcategory
code equals it, and true when no subcategory is active. -/
def matchesFilter (s : CtrlState) (e : EventData) : Bool :=
  if s.currentFilter == "all" then true
  else if !(e.category == s.currentFilter) then false
  else if truthyOptStr s.currentSubcategory then
    e.subcategory == s.currentSubcategory
  else true

theorem isLeadOf_iff (n h : List Char) :
    isLeadOf n h = true ↔ ∃ r, h = n ++ r := by
  induction n generalizing h with
  | nil => simp [isLeadOf]
  | cons a as ih =>
    cases h with
    | nil =>
      simp [isLeadOf]
    | cons b bs =>
      simp only [isLeadOf, Bool.and_eq_true, beq_iff_eq, ih, List.cons_append,
        List.cons.injEq]
      constructor
      · rintro ⟨hab, r, hr⟩
        exact ⟨r, hab.symm, hr⟩
      · rintro ⟨r, hab, hr⟩
        exact ⟨hab.symm, r, hr⟩

theorem strContainsSub_iff (h n : List Char) :
    strContainsSub h n = true ↔ ∃ l r, h = l ++ n ++ r := by
  induction h with
  | nil =>
    simp only [strContainsSub, List.isEmpty_iff]
    constructor
    · rintro rfl
      exact ⟨[], [], rfl⟩
    · rintro ⟨l, r, hr⟩
      rcases List.append_eq_nil.mp (List.append_eq_nil.mp hr.symm).1 with ⟨-, h2⟩
      exact h2
  | cons c cs ih =>
    simp only [strContainsSub, Bool.or_eq_true, isLeadOf_iff, ih]
    constructor
    · rintro (⟨r, hr⟩ | ⟨l, r, hr⟩)
      · exact ⟨[], r, by simp [hr]⟩
      · exact ⟨c :: l, r, by simp [hr]⟩
    · rintro ⟨l, r, hr⟩
      cases l with
      | nil =>
        exact Or.inl ⟨r, by simpa using hr⟩
      | cons x xs =>
        simp only [List.cons_append, List.cons.injEq] at hr
        exact Or.inr ⟨xs, r, hr.2⟩

/-- classList.add: adding a css class that is already present is a no-op. -/
def classAdd (c : String) (l : List String) : List String :=
  if l.contains c then l else c :: l

/-- updateFilterButtons: the filter button carrying active becomes the
one whose data-filter equals currentFilter. -/
def updateFilterButtons (s : CtrlState) : CtrlState :=
  { s with activeFilter := some s.currentFilter }

/-- updateSubcategoryButtons: the subcategory button carrying active
becomes the one whose data-filter equals currentSubcategory (none when
currentSubcategory is null). -/
def updateSubcategoryButtons (s : CtrlState) : CtrlState :=
  { s with activeSub := s.currentSubcategory }

/-- hideAllSubcategories: remove the css class show from every
subcategory picker container. -/
def hideAllSubcategories (s : CtrlState) : CtrlState :=
  { s with shownPickers := [] }

/-- resetAllButtons: remove active from every filter and subcategory
button, then add active to the all button. -/
def resetAllButtons (s : CtrlState) : CtrlState :=
  { s with activeFilter := some "all", activeSub := none }

/-- The filter button click handler of setupFilterListeners, applied to
the clicked button's data-filter code. -/
def clickFilter (filter : String) (s : CtrlState) : CtrlState :=
  if filter == "all" then
    updateFilterButtons
      (hideAllSubcategories
        { s with currentFilter := "all", currentSubcategory := none })
  else if filter == "founder" || filter == "regulation" then
    if s.currentFilter == filter then
      if s.shownPickers.contains filter then
        updateSubcategoryButtons
          (hideAllSubcategories { s with currentSubcategory := none })
      else
        { s with shownPickers := classAdd filter s.shownPickers }
    else
      let s1 := hideAllSubcategories
        { s with currentFilter := filter, currentSubcategory := none }
      updateFilterButtons
        { s1 with shownPickers := classAdd filter s1.shownPickers }
  else
    updateFilterButtons s

/-- The subcategory button click handler of setupSubcategoryListeners,
applied to the clicked button's data-filter code. -/
def clickSubcategory (code : String) (s : CtrlState) : CtrlState :=
  updateSubcategoryButtons { s with currentSubcategory := some code }

/-- The clear button click handler of setupSearchListeners. -/
def clearClick (s : CtrlState) : CtrlState :=
  resetAllButtons
    { s with currentSearchTerm := "", currentFilter := "all",
             currentSubcategory := none }

/-- The document-level click handler of setupClickOutsideListener, for a
click landing outside the filter group and the search container. -/
def clickOutside (s : CtrlState) : CtrlState :=
  hideAllSubcategories s

/-- The search input handler: store the typed term. -/
def setSearchTerm (t : String) (s : CtrlState) : CtrlState :=
  { s with currentSearchTerm := t }

/-- One user interaction available through the UI.  The owner map sends
each subcategory button code to the category whose picker container
holds that button; a subcategory button is clickable only while its
owning container carries show. -/
inductive Step (owner : String → String) : CtrlState → CtrlState → Prop where
  | filterClick (f : String) (s : CtrlState) : Step owner s (clickFilter f s)
  | subcatClick (code : String) (s : CtrlState)
      (h : s.shownPickers.contains (owner code) = true) :
      Step owner s (clickSubcategory code s)
  | searchInput (t : String) (s : CtrlState) : Step owner s (setSearchTerm t s)
  | outsideClick (s : CtrlState) : Step owner s (clickOutside s)
  | clearBtn (s : CtrlState) : Step owner s (clearClick s)

/-- States reachable from the freshly constructed controller. -/
inductive Reachable (owner : String → String) : CtrlState → Prop where
  | init : Reachable owner initState
  | step {s t : CtrlState} : Reachable owner s → Step owner s t →
      Reachable owner t

/-- One user interaction, the clear button excluded. -/
inductive StepNC (owner : String → String) : CtrlState → CtrlState → Prop where
  | filterClick (f : String) (s : CtrlState) : StepNC owner s (clickFilter f s)
  | subcatClick (code : String) (s : CtrlState)
      (h : s.shownPickers.contains (owner code) = true) :
      StepNC owner s (clickSubcategory code s)
  | searchInput (t : String) (s : CtrlState) :
      StepNC owner s (setSearchTerm t s)
  | outsideClick (s : CtrlState) : StepNC owner s (clickOutside s)

/-- States reachable without ever pressing the clear button. -/
inductive ReachableNC (owner : String → String) : CtrlState → Prop where
  | init : ReachableNC owner initState
  | step {s t : CtrlState} : ReachableNC owner s → StepNC owner s t →
      ReachableNC owner t

/-- The inline style fields of an event node that the controller writes. -/
structure EventStyle where
  display : String
  opacity : String
  transform : String
deriving DecidableEq

/-- showEvent: display flex, fully opaque, resting transform. -/
def showEvent (st : EventStyle) : EventStyle :=
  { st with display := "flex", opacity := "1", transform := "translateY(0)" }

/-- The synchronous part of hideEvent: fade out and shift up. -/
def hideEventStart (st : EventStyle) : EventStyle :=
  { st with opacity := "0", transform := "translateY(-10px)" }

/-- The deferred part of hideEvent: after the fade delay, remove the node
from layout only if it is still faded. -/
def hideEventTimeout (st : EventStyle) : EventStyle :=
  if st.opacity == "0" then { st with display := "none" } else st

/-- hideEvent in the settled regime: the fade timer fires with no
intervening state change, so the opacity guard sees the faded value. -/
def hideEventSettled (st : EventStyle) : EventStyle :=
  hideEventTimeout (hideEventStart st)

/-- The per-event body of applyAllFilters, in the settled regime. -/
def applyFiltersToEvent (s : CtrlState) (e : EventData) (st : EventStyle) :
    EventStyle :=
  if matchesSearch s e && matchesFilter s e then showEvent st
  else hideEventSettled st

/-- The per-event test of updateSectionVisibility: an event counts as
visible when it is displayed and not fully transparent. -/
def eventCountedVisible (st : EventStyle) : Bool :=
  st.display != "none" && st.opacity != "0"

/-- updateSectionVisibility for one section: display none when no child
event counts as visible, display block otherwise. -/
def updateSectionVisibility (children : List EventStyle) : String :=
  if (children.filter eventCountedVisible).length = 0 then "none" else "block"

/-- The whole per-event loop of applyAllFilters over a section's events,
in the settled regime (each event paired with its previous style). -/
def applyAllFiltersSettled (s : CtrlState)
    (items : List (EventData × EventStyle)) : List EventStyle :=
  items.map fun p => applyFiltersToEvent s p.1 p.2

theorem eventCountedVisible_applyFiltersToEvent (s : CtrlState)
    (e : EventData) (st : EventStyle) :
    eventCountedVisible (applyFiltersToEvent s e st)
      = (matchesSearch s e && matchesFilter s e) := by
  unfold applyFiltersToEvent
  by_cases h : (matchesSearch s e && matchesFilter s e) = true
  · simp [h, showEvent, eventCountedVisible]
  · simp only [Bool.not_eq_true] at h
    simp [h, hideEventSettled, hideEventStart, hideEventTimeout,
      eventCountedVisible]

/-- Claim C1: after the recomputation pass settles, an event is marked
visible (displayed with display flex and fully opaque) exactly when both
the search predicate and the filter predicate hold for it; whenever
either predicate fails, the event has been faded to opacity 0 and
removed from layout with display none. -/
theorem event_visible_iff_search_and_filter (s : CtrlState) (e : EventData)
    (st : EventStyle) :
    (((applyFiltersToEvent s e st).display = "flex"
        ∧ (applyFiltersToEvent s e st).opacity = "1")
      ↔ (matchesSearch s e = true ∧ matchesFilter s e = true))
    ∧ (¬ (matchesSearch s e = true ∧ matchesFilter s e = true)
        → (applyFiltersToEvent s e st).display = "none"
          ∧ (applyFiltersToEvent s e st).opacity = "0") := by
  unfold applyFiltersToEvent
  by_cases h : (matchesSearch s e && matchesFilter s e) = true
  · rw [Bool.and_eq_true] at h
    simp [h, Bool.and_eq_true, showEvent]
  · rw [Bool.and_eq_true] at h
    simp only [Bool.and_eq_true, if_neg h]
    simp [hideEventSettled, hideEventStart, hideEventTimeout, h]

/-- Claim C2: matchesFilter returns true when the active primary
category is all; otherwise it requires the event's category code to
equal the active category, and, when a subcategory is active, it
additionally requires the event's subcategory code to equal the active
subcategory. -/
theorem matchesFilter_characterisation (s : CtrlState) (e : EventData) :
    matchesFilter s e = true
      ↔ (s.currentFilter = "all"
          ∨ (e.category = s.currentFilter
              ∧ (truthyOptStr s.currentSubcategory = true
                  → e.subcategory = s.currentSubcategory))) := by
  unfold matchesFilter
  by_cases hall : s.currentFilter = "all"
  · simp [hall]
  · by_cases hcat : e.category = s.currentFilter
    · by_cases hsub : truthyOptStr s.currentSubcategory = true
      · simp [hall, hcat, hsub]
      · simp [hall, hcat, hsub]
    · simp [hall, hcat]

/-- Claim C3: matchesSearch with an empty search term accepts every
event; with a non-empty term it accepts exactly the events whose cached
lower-cased concatenated text contains the lower-cased term as a plain
substring. -/
theorem matchesSearch_characterisation (s : CtrlState) (r : RawEvent) :
    matchesSearch s (preloadEventData r) = true
      ↔ (s.currentSearchTerm = ""
          ∨ ∃ l t, (preloadEventData r).text.toList
              = l ++ (s.currentSearchTerm.toLower).toList ++ t) := by
  unfold matchesSearch truthyStr
  by_cases h : s.currentSearchTerm = ""
  · simp [h]
  · have hb : (s.currentSearchTerm == "") = false := by
      simpa [beq_iff_eq] using h
    simp only [hb, Bool.not_false, Bool.not_true, Bool.false_eq_true,
      if_false, strContainsSub_iff]
    constructor
    · rintro ⟨l, t, ht⟩
      exact Or.inr ⟨l, t, ht⟩
    · rintro (heq | ⟨l, t, ht⟩)
      · exact absurd heq h
      · exact ⟨l, t, ht⟩

/-- Claim C4: after the recomputation pass settles, a section is
displayed (display block) exactly when at least one of its child events
satisfies both the search predicate and the filter predicate, and hidden
(display none) otherwise; the outcome depends only on the filter state
and the events' cached data, so restoring a filter state under which a
child matches again makes the section displayed again. -/
theorem section_visible_iff_some_child_visible (s : CtrlState)
    (items : List (EventData × EventStyle)) :
    updateSectionVisibility (applyAllFiltersSettled s items) = "block"
      ↔ ∃ p ∈ items, matchesSearch s p.1 = true ∧ matchesFilter s p.1 = true := by
  unfold updateSectionVisibility applyAllFiltersSettled
  by_cases h : ∃ p ∈ items, matchesSearch s p.1 = true ∧ matchesFilter s p.1 = true
  · rcases h with ⟨p, hp, h1, h2⟩
    have hmem : applyFiltersToEvent s p.1 p.2 ∈
        (items.map fun q => applyFiltersToEvent s q.1 q.2).filter
          eventCountedVisible := by
      rw [List.mem_filter]
      refine ⟨List.mem_map_of_mem _ hp, ?_⟩
      rw [eventCountedVisible_applyFiltersToEvent, Bool.and_eq_true]
      exact ⟨h1, h2⟩
    have hlen : ((items.map fun q => applyFiltersToEvent s q.1 q.2).filter
        eventCountedVisible).length ≠ 0 := by
      intro h0
      rw [List.length_eq_zero] at h0
      rw [h0] at hmem
      exact absurd hmem (List.not_mem_nil _)
    rw [if_neg hlen]
    exact iff_of_true rfl ⟨p, hp, h1, h2⟩
  · have hnil : (items.map fun q => applyFiltersToEvent s q.1 q.2).filter
        eventCountedVisible = [] := by
      rw [List.filter_eq_nil_iff]
      intro st hst
      rw [List.mem_map] at hst
      rcases hst with ⟨q, hq, rfl⟩
      rw [eventCountedVisible_applyFiltersToEvent]
      intro hcontra
      rw [Bool.and_eq_true] at hcontra
      exact h ⟨q, hq, hcontra.1, hcontra.2⟩
    rw [hnil]
    simp only [List.length_nil, if_pos rfl]
    constructor
    · intro hbad
      exact absurd hbad (by decide)
    · intro hex
      exact absurd hex h

/-- Claim C6: matchesFilter is monotonic in the primary category: an
event matching under any filter state also matches after the primary
category is switched to all, so moving from all to a specific category
can only remove matches. -/
theorem matchesFilter_monotone_all (s : CtrlState) (e : EventData)
    (h : matchesFilter s e = true) :
    matchesFilter { s with currentFilter := "all" } e = true := by
  unfold matchesFilter
  simp

/-- Witness for claim C6 at a concrete state and event. -/
theorem matchesFilter_monotone_all_witness :
    matchesFilter
        { currentFilter := "founder", currentSubcategory := none,
          currentSearchTerm := "", shownPickers := ["founder"],
          activeFilter := some "founder", activeSub := none }
        { text := "alpha", category := "founder", subcategory := none } = true
      ∧ matchesFilter
        { currentFilter := "all", currentSubcategory := none,
          currentSearchTerm := "", shownPickers := ["founder"],
          activeFilter := some "founder", activeSub := none }
        { text := "alpha", category := "founder", subcategory := none } = true :=
  ⟨by decide, matchesFilter_monotone_all
    { currentFilter := "founder", currentSubcategory := none,
      currentSearchTerm := "", shownPickers := ["founder"],
      activeFilter := some "founder", activeSub := none }
    { text := "alpha", category := "founder", subcategory := none }
    (by decide)⟩

/-- Claim C10: the clear handler resets the search term, the primary
category, the subcategory and the active indicators, but leaves the show
marker of every subcategory picker untouched: any picker shown before
clear is still shown immediately after. -/
theorem clearClick_resets_state_but_keeps_shown (s : CtrlState) :
    (clearClick s).shownPickers = s.shownPickers
    ∧ (clearClick s).currentSearchTerm = ""
    ∧ (clearClick s).currentFilter = "all"
    ∧ (clearClick s).currentSubcategory = none
    ∧ (clearClick s).activeFilter = some "all"
    ∧ (clearClick s).activeSub = none := by
  simp [clearClick, resetAllButtons]

theorem mem_classAdd (c f : String) (l : List String) :
    c ∈ classAdd f l → c = f ∨ c ∈ l := by
  unfold classAdd
  split
  · exact fun h => Or.inr h
  · intro h
    rcases List.mem_cons.mp h with h | h
    · exact Or.inl h
    · exact Or.inr h

theorem stepNC_inv (owner : String → String) {s t : CtrlState}
    (hstep : StepNC owner s t)
    (ih1 : ∀ code, s.currentSubcategory = some code
        → s.currentFilter = owner code)
    (ih2 : ∀ c ∈ s.shownPickers, c = s.currentFilter) :
    (∀ code, t.currentSubcategory = some code → t.currentFilter = owner code)
    ∧ (∀ c ∈ t.shownPickers, c = t.currentFilter) := by
  cases hstep with
  | filterClick f s =>
    by_cases hall : (f == "all") = true
    · unfold clickFilter
      rw [if_pos hall]
      refine ⟨?_, ?_⟩
      · intro code hc
        simp [updateFilterButtons, hideAllSubcategories] at hc
      · intro c hc
        simp [updateFilterButtons, hideAllSubcategories] at hc
    · by_cases hfr : (f == "founder" || f == "regulation") = true
      · by_cases hcur : (s.currentFilter == f) = true
        · by_cases hshow : (s.shownPickers.contains f) = true
          · unfold clickFilter
            rw [if_neg hall, if_pos hfr, if_pos hcur, if_pos hshow]
            refine ⟨?_, ?_⟩
            · intro code hc
              simp [updateSubcategoryButtons, hideAllSubcategories] at hc
            · intro c hc
              simp [updateSubcategoryButtons, hideAllSubcategories] at hc
          · unfold clickFilter
            rw [if_neg hall, if_pos hfr, if_pos hcur, if_neg hshow]
            refine ⟨?_, ?_⟩
            · intro code hc
              exact ih1 code hc
            · intro c hc
              rcases mem_classAdd c f s.shownPickers hc with rfl | hmem
              · exact (beq_iff_eq.mp hcur).symm
              · exact ih2 c hmem
        · unfold clickFilter
          rw [if_neg hall, if_pos hfr, if_neg hcur]
          refine ⟨?_, ?_⟩
          · intro code hc
            simp [updateFilterButtons, hideAllSubcategories] at hc
          · intro c hc
            simp only [updateFilterButtons, hideAllSubcategories, classAdd,
              List.contains_nil, Bool.false_eq_true, if_false] at hc ⊢
            rcases List.mem_cons.mp hc with rfl | hnil
            · rfl
            · exact absurd hnil (List.not_mem_nil c)
      · unfold clickFilter
        rw [if_neg hall, if_neg hfr]
        exact ⟨fun code hc => ih1 code hc, fun c hc => ih2 c hc⟩
  | subcatClick code s hshown =>
    refine ⟨?_, ?_⟩
    · intro c hc
      have hmem : owner code ∈ s.shownPickers := by
        simpa using hshown
      have hfc : owner code = s.currentFilter := ih2 (owner code) hmem
      simp only [clickSubcategory, updateSubcategoryButtons,
        Option.some.injEq] at hc
      subst hc
      exact hfc.symm
    · intro c hc
      exact ih2 c hc
  | searchInput t1 s =>
    exact ⟨fun code hc => ih1 code hc, fun c hc => ih2 c hc⟩
  | outsideClick s =>
    refine ⟨fun code hc => ih1 code hc, ?_⟩
    · intro c hc
      simp [clickOutside, hideAllSubcategories] at hc

theorem reachableNC_inv (owner : String → String) (s : CtrlState)
    (h : ReachableNC owner s) :
    (∀ code, s.currentSubcategory = some code → s.currentFilter = owner code)
    ∧ (∀ c ∈ s.shownPickers, c = s.currentFilter) := by
  induction h with
  | init =>
    refine ⟨?_, ?_⟩
    · intro code hc
      simp [initState] at hc
    · intro c hc
      simp [initState] at hc
  | step hr hstep ih =>
    exact stepNC_inv owner hstep ih.1 ih.2

/-- Claim C5 (amended): in every state reachable without the clear
button, a non-null active subcategory's owning category equals the
active primary category; selecting all clears the subcategory and marks
no picker shown; switching to a different primary category clears the
subcategory and marks exactly the newly active category's picker shown.
(The claim as stated fails: switching reveals the new category's picker,
and the clear button leaves pickers shown, after which a subcategory not
owned by the active category can be selected.) -/
theorem subcategory_invariant_amended (owner : String → String)
    (s : CtrlState) (h : ReachableNC owner s) :
    (∀ code, s.currentSubcategory = some code → s.currentFilter = owner code)
    ∧ ((clickFilter "all" s).currentSubcategory = none
        ∧ (clickFilter "all" s).shownPickers = [])
    ∧ (∀ f, (f = "founder" ∨ f = "regulation") → s.currentFilter ≠ f →
        (clickFilter f s).currentSubcategory = none
        ∧ (clickFilter f s).shownPickers = [f]) := by
  refine ⟨(reachableNC_inv owner s h).1, ?_, ?_⟩
  · constructor <;>
      simp [clickFilter, updateFilterButtons, hideAllSubcategories]
  · intro f hf hne
    have hall : (f == "all") = false := by
      rcases hf with rfl | rfl <;> decide
    have hfr : (f == "founder" || f == "regulation") = true := by
      rcases hf with rfl | rfl <;> decide
    have hcur : (s.currentFilter == f) = false := beq_eq_false_iff_ne.mpr hne
    unfold clickFilter
    rw [if_neg (by simp [hall]), if_pos hfr, if_neg (by simp [hcur])]
    constructor <;>
      simp [updateFilterButtons, hideAllSubcategories, classAdd]

/-- Witness for claim C5 (amended) at the initial state. -/
theorem subcategory_invariant_amended_witness :
    ReachableNC (fun _ => "founder") initState
    ∧ (clickFilter "all" initState).currentSubcategory = none
    ∧ (clickFilter "all" initState).shownPickers = [] :=
  ⟨ReachableNC.init,
    (subcategory_invariant_amended (fun _ => "founder") initState
      ReachableNC.init).2.1⟩

/-- Counterexample to claim C5 as stated.  First, switching the primary
category from founder to regulation leaves the regulation picker marked
shown, contradicting that no subcategory picker is marked shown after
the switch.  Second, with the clear button included, a reachable state
has active subcategory seed (owned by founder) while the active primary
category is all: click founder, click clear (which leaves the founder
picker shown), then click the still-exposed seed subcategory button. -/
theorem subcategory_invariant_counterexample :
    ((clickFilter "regulation" (clickFilter "founder" initState)).currentSubcategory
        = none
      ∧ (clickFilter "regulation" (clickFilter "founder" initState)).shownPickers
        = ["regulation"])
    ∧ (Reachable (fun _ => "founder")
        (clickSubcategory "seed" (clearClick (clickFilter "founder" initState)))
      ∧ (clickSubcategory "seed"
          (clearClick (clickFilter "founder" initState))).currentFilter = "all"
      ∧ (clickSubcategory "seed"
          (clearClick (clickFilter "founder" initState))).currentSubcategory
        = some "seed") := by
  refine ⟨⟨by decide, by decide⟩, ?_, by decide, by decide⟩
  exact Reachable.step
    (Reachable.step
      (Reachable.step Reachable.init (Step.filterClick "founder" initState))
      (Step.clearBtn _))
    (Step.subcatClick "seed" _ (by decide))

/-- Claim C9 (amended): when the clicked primary filter is already the
active category, the behaviour depends on whether its picker is shown.
If the picker is not shown, the click only reveals it: category,
subcategory and search term are unchanged, so both match predicates are
unchanged for every event.  If the picker is shown, the click collapses
all pickers and also clears the active subcategory, which changes the
match predicate whenever a subcategory was active.  (The claim as stated
fails on the collapse branch.) -/
theorem toggle_branch_amended (s : CtrlState) (f : String)
    (hf : f = "founder" ∨ f = "regulation") (hcur : s.currentFilter = f) :
    (s.shownPickers.contains f = false →
      ((clickFilter f s).currentFilter = s.currentFilter
        ∧ (clickFilter f s).currentSubcategory = s.currentSubcategory
        ∧ (clickFilter f s).currentSearchTerm = s.currentSearchTerm
        ∧ (clickFilter f s).shownPickers = classAdd f s.shownPickers
        ∧ ∀ e, matchesFilter (clickFilter f s) e = matchesFilter s e
            ∧ matchesSearch (clickFilter f s) e = matchesSearch s e))
    ∧ (s.shownPickers.contains f = true →
      ((clickFilter f s).currentSubcategory = none
        ∧ (clickFilter f s).shownPickers = [])) := by
  have hall : (f == "all") = false := by
    rcases hf with rfl | rfl <;> decide
  have hfr : (f == "founder" || f == "regulation") = true := by
    rcases hf with rfl | rfl <;> decide
  have hcur' : (s.currentFilter == f) = true := beq_iff_eq.mpr hcur
  constructor
  · intro hshow
    unfold clickFilter
    rw [if_neg (by simp [hall]), if_pos hfr, if_pos hcur',
      if_neg (by simp only [hshow]; exact Bool.false_ne_true)]
    exact ⟨rfl, rfl, rfl, rfl, fun e => ⟨rfl, rfl⟩⟩
  · intro hshow
    unfold clickFilter
    rw [if_neg (by simp [hall]), if_pos hfr, if_pos hcur', if_pos hshow]
    exact ⟨rfl, rfl⟩

/-- Witness for claim C9 (amended): after clicking founder once, the
founder picker is shown, and clicking founder again collapses it and
clears the subcategory. -/
theorem toggle_branch_amended_witness :
    (clickFilter "founder" initState).currentFilter = "founder"
    ∧ (clickFilter "founder" initState).shownPickers.contains "founder" = true
    ∧ (clickFilter "founder" (clickFilter "founder" initState)).currentSubcategory
        = none
    ∧ (clickFilter "founder" (clickFilter "founder" initState)).shownPickers
        = [] := by
  refine ⟨by decide, by decide, ?_⟩
  exact (toggle_branch_amended (clickFilter "founder" initState) "founder"
    (Or.inl rfl) (by decide)).2 (by decide)

/-- The concrete event used in the counterexample to claim C9: a founder
event carrying a subcategory other than the selected one. -/
def toggleCexEvent : EventData :=
  { text := "", category := "founder", subcategory := some "preipo" }

/-- The concrete state used in the counterexample to claim C9: founder
active, subcategory seed selected, the founder picker shown. -/
def toggleCexState : CtrlState :=
  clickSubcategory "seed" (clickFilter "founder" initState)

/-- Counterexample to claim C9 as stated: in a reachable state with the
founder filter active, subcategory seed selected and the founder picker
shown, clicking founder again takes the collapse branch, which clears
the subcategory, so matchesFilter changes from false to true for a
founder event whose subcategory is not seed. -/
theorem toggle_preserves_matches_counterexample :
    toggleCexState.currentFilter = "founder"
    ∧ Reachable (fun _ => "founder") toggleCexState
    ∧ matchesFilter toggleCexState toggleCexEvent = false
    ∧ matchesFilter (clickFilter "founder" toggleCexState) toggleCexEvent = true
    ∧ (clickFilter "founder" toggleCexState).currentSubcategory
        ≠ toggleCexState.currentSubcategory := by
  refine ⟨by decide, ?_, by decide, by decide, by decide⟩
  exact Reachable.step
    (Reachable.step Reachable.init (Step.filterClick "founder" initState))
    (Step.subcatClick "seed" _ (by decide))

/-- A node produced inside a title or description element by the
highlight pass: either a plain text node or a span with class
search-highlight wrapping the matched characters. -/
inductive HLNode where
  | text (cs : List Char)
  | mark (cs : List Char)

/-- Case-insensitive occurrence of the needle at the head of the
haystack, the per-position test of the gi pattern built from the
literal search term. -/
def ciLead : List Char → List Char → Bool
  | [], _ => true
  | _ :: _, [] => false
  | a :: as, b :: bs => a.toLower == b.toLower && ciLead as bs

/-- The highlight algorithm as the spec states it (the behaviour
highlightText is intended to have): scan the element's text left to
right; at each position where the search term occurs case-insensitively
as a literal, wrap the matched characters (original casing kept) in a
search-highlight span and continue after the match; every other
character stays as plain text.  The code's actual mechanism feeds the
unescaped term to the RegExp constructor and assigns the replaced
string to innerHTML; it agrees with this algorithm only for terms free
of pattern-significant characters and texts free of markup-significant
characters, and diverges or throws elsewhere, which is the defect
recorded against claim C7 below. -/
def highlightSplit (term : List Char) : List Char → List HLNode
  | [] => []
  | c :: cs =>
    if h : (!term.isEmpty && ciLead term (c :: cs)) = true then
      HLNode.mark ((c :: cs).take term.length)
        :: highlightSplit term ((c :: cs).drop term.length)
    else
      HLNode.text [c] :: highlightSplit term cs
termination_by l => l.length
decreasing_by
  · rw [Bool.and_eq_true] at h
    have hne : term ≠ [] := by
      intro hnil
      rw [hnil] at h
      exact absurd h.1 (by decide)
    have h1 : 1 ≤ term.length := by
      cases term with
      | nil => exact absurd rfl hne
      | cons x xs => simp
    simp only [List.length_drop, List.length_cons]
    omega
  · simp

/-- The characters carried by one node. -/
def nodeChars : HLNode → List Char
  | HLNode.text cs => cs
  | HLNode.mark cs => cs

/-- removeHighlights followed by normalize: every search-highlight span
is replaced by a text node holding its text content and adjacent text
nodes are merged, leaving the concatenation of all node texts. -/
def removeHighlightsModel (ns : List HLNode) : List Char :=
  (ns.map nodeChars).flatten

theorem removeHighlightsModel_cons (x : HLNode) (ns : List HLNode) :
    removeHighlightsModel (x :: ns) = nodeChars x ++ removeHighlightsModel ns := by
  simp [removeHighlightsModel]

/-- The intended highlight pass applied to an element whose textContent
is the given text, with the given search term (see highlightSplit for
how this idealisation relates to the code). -/
def highlightTextModel (text term : String) : List HLNode :=
  highlightSplit term.toList text.toList

theorem highlightSplit_roundtrip (term : List Char) :
    ∀ (n : Nat) (text : List Char), text.length ≤ n →
      removeHighlightsModel (highlightSplit term text) = text := by
  intro n
  induction n with
  | zero =>
    intro text hlen
    have : text = [] := by
      cases text with
      | nil => rfl
      | cons c cs => simp at hlen
    subst this
    simp [highlightSplit, removeHighlightsModel]
  | succ n ih =>
    intro text hlen
    cases text with
    | nil => simp [highlightSplit, removeHighlightsModel]
    | cons c cs =>
      rw [highlightSplit]
      by_cases h : (!term.isEmpty && ciLead term (c :: cs)) = true
      · rw [dif_pos h]
        have hne : 1 ≤ term.length := by
          rw [Bool.and_eq_true] at h
          cases term with
          | nil => exact absurd h.1 (by decide)
          | cons x xs => simp
        have hdrop : ((c :: cs).drop term.length).length ≤ n := by
          simp only [List.length_drop, List.length_cons]
          simp only [List.length_cons] at hlen
          omega
        rw [removeHighlightsModel_cons, ih _ hdrop]
        exact List.take_append_drop term.length (c :: cs)
      · rw [dif_neg h]
        have hcs : cs.length ≤ n := by
          simp only [List.length_cons] at hlen
          omega
        rw [removeHighlightsModel_cons, ih _ hcs]
        rfl

/-- The round trip the spec asserts holds of the highlight algorithm it
specifies: applying the intended literal highlight pass and then
clearing the search term (replacing each span by its text content and
normalizing text nodes) restores the original text exactly, including
when the text contains no occurrence of the term.  This certifies the
specified behaviour only; the code's unescaped-pattern and innerHTML
mechanisms fail it, see the claim C7 evaluation below. -/
theorem highlight_roundtrip_exact (text term : String) :
    String.mk (removeHighlightsModel (highlightTextModel text term)) = text := by
  unfold highlightTextModel
  rw [highlightSplit_roundtrip term.toList text.toList.length text.toList
    (Nat.le_refl _)]
  rfl

/-- A JavaScript number as far as this computation needs it: a finite
value (modelled as a rational), a signed infinity, or NaN. -/
inductive JSNum where
  | num (q : ℚ)
  | posInf
  | negInf
  | nan
deriving DecidableEq

/-- JavaScript division.  Finite by finite-nonzero divides; zero over
zero is NaN; nonzero over (positive) zero is a signed infinity; NaN
propagates; finite over infinite is zero; infinite over infinite is NaN. -/
def jsDiv : JSNum → JSNum → JSNum
  | JSNum.nan, _ => JSNum.nan
  | _, JSNum.nan => JSNum.nan
  | JSNum.num a, JSNum.num b =>
      if b = 0 then
        if a = 0 then JSNum.nan
        else if 0 < a then JSNum.posInf else JSNum.negInf
      else JSNum.num (a / b)
  | JSNum.num _, JSNum.posInf => JSNum.num 0
  | JSNum.num _, JSNum.negInf => JSNum.num 0
  | JSNum.posInf, JSNum.num b => if b < 0 then JSNum.negInf else JSNum.posInf
  | JSNum.negInf, JSNum.num b => if b < 0 then JSNum.posInf else JSNum.negInf
  | JSNum.posInf, _ => JSNum.nan
  | JSNum.negInf, _ => JSNum.nan

/-- JavaScript multiplication; NaN propagates, infinity times zero is NaN. -/
def jsMul : JSNum → JSNum → JSNum
  | JSNum.nan, _ => JSNum.nan
  | _, JSNum.nan => JSNum.nan
  | JSNum.num a, JSNum.num b => JSNum.num (a * b)
  | JSNum.num a, JSNum.posInf =>
      if a = 0 then JSNum.nan
      else if 0 < a then JSNum.posInf else JSNum.negInf
  | JSNum.num a, JSNum.negInf =>
      if a = 0 then JSNum.nan
      else if 0 < a then JSNum.negInf else JSNum.posInf
  | JSNum.posInf, JSNum.num b =>
      if b = 0 then JSNum.nan
      else if 0 < b then JSNum.posInf else JSNum.negInf
  | JSNum.negInf, JSNum.num b =>
      if b = 0 then JSNum.nan
      else if 0 < b then JSNum.negInf else JSNum.posInf
  | JSNum.posInf, JSNum.posInf => JSNum.posInf
  | JSNum.negInf, JSNum.negInf => JSNum.posInf
  | JSNum.posInf, JSNum.negInf => JSNum.negInf
  | JSNum.negInf, JSNum.posInf => JSNum.negInf

/-- Math.max for two arguments: NaN if either argument is NaN. -/
def jsMax : JSNum → JSNum → JSNum
  | JSNum.nan, _ => JSNum.nan
  | _, JSNum.nan => JSNum.nan
  | JSNum.posInf, _ => JSNum.posInf
  | _, JSNum.posInf => JSNum.posInf
  | JSNum.negInf, b => b
  | a, JSNum.negInf => a
  | JSNum.num a, JSNum.num b => JSNum.num (max a b)

/-- Math.min for two arguments: NaN if either argument is NaN. -/
def jsMin : JSNum → JSNum → JSNum
  | JSNum.nan, _ => JSNum.nan
  | _, JSNum.nan => JSNum.nan
  | JSNum.negInf, _ => JSNum.negInf
  | _, JSNum.negInf => JSNum.negInf
  | JSNum.posInf, b => b
  | a, JSNum.posInf => a
  | JSNum.num a, JSNum.num b => JSNum.num (min a b)

/-- updateProgress of setupScrollListener: scrollTop is pageYOffset,
docHeight is scrollHeight minus innerHeight (a finite subtraction), and
the written width percentage is
Math.min(100, Math.max(0, (scrollTop / docHeight) * 100)). -/
def updateProgressPercent (scrollTop scrollHeight innerHeight : ℚ) : JSNum :=
  jsMin (JSNum.num 100)
    (jsMax (JSNum.num 0)
      (jsMul (jsDiv (JSNum.num scrollTop)
          (JSNum.num (scrollHeight - innerHeight)))
        (JSNum.num 100)))

/-- Claim C8 evaluated at the failing input: when the content is no
taller than the viewport (scrollHeight = innerHeight, hence document
height difference 0) and the page is unscrolled (scrollTop 0), the code
computes (0 / 0) * 100 = NaN, and Math.max and Math.min propagate it, so
the written progress value is NaN rather than a number in [0, 100]: the
clamp does not guard the division. -/
theorem updateProgress_nan_at_degenerate_height :
    updateProgressPercent 0 600 600 = JSNum.nan := by
  unfold updateProgressPercent
  norm_num [jsDiv, jsMul, jsMax, jsMin]

/-- The pattern string highlightText hands to the RegExp constructor:
the search term, unescaped, wrapped in a capture group. -/
def highlightPattern (term : String) : String := "(" ++ term ++ ")"

/-- A well-formedness condition that every pattern string accepted by
the JavaScript RegExp constructor satisfies, checked by a left-to-right
scan: a backslash escapes the character after it (and may not dangle at
the end); inside a character class, brackets close the class and every
other character is literal; outside a class, an opening parenthesis
opens a group, a closing parenthesis must close an open group, and at
the end of the pattern no group and no class may remain open.  A
pattern failing this scan makes the RegExp constructor throw. -/
def regExpGroupScan : List Char → Nat → Bool → Bool
  | [], depth, inClass => depth == 0 && !inClass
  | '\\' :: rest, depth, inClass =>
    match rest with
    | [] => false
    | _ :: rest2 => regExpGroupScan rest2 depth inClass
  | c :: rest, depth, inClass =>
    if inClass then
      regExpGroupScan rest depth (!(c == ']'))
    else if c == '[' then regExpGroupScan rest depth true
    else if c == '(' then regExpGroupScan rest (depth + 1) inClass
    else if c == ')' then
      match depth with
      | 0 => false
      | d + 1 => regExpGroupScan rest d inClass
    else regExpGroupScan rest depth inClass

/-- Whether a pattern string passes the group-balance scan, a necessary
condition for the RegExp constructor to accept it. -/
def regExpGroupsBalanced (cs : List Char) : Bool := regExpGroupScan cs 0 false

/-- Claim C7 evaluated at the failing input: highlightText builds its
pattern from the unescaped search term, so for the term consisting of a
single opening parenthesis the built pattern is three characters with
two opening and one closing parenthesis, which fails the group-balance
condition every compilable JavaScript pattern satisfies; the RegExp
constructor therefore throws, the highlight pass aborts, and the claimed
round trip cannot even be performed.  (The other failure mechanism, the
innerHTML write whose HTML re-parse mangles markup-significant text, is
browser parsing semantics outside this embedding.) -/
theorem highlightPattern_unbalanced_at_paren_term :
    regExpGroupsBalanced (highlightPattern "(").toList = false := by decide
